import Mathlib

/-!
Verification of the edcontrols-cli core subsystems against their
natural-language specification.

The Go sources are shallowly embedded:
* strings are modelled as Lean `String` (lists of characters; the inputs
  of interest are ASCII, where Go's byte-indexed slicing and rune-based
  operations coincide);
* Go `time.Time` values are modelled by `GoTime` (civil fields) and, where
  only ordering matters, by an absolute `Int` instant (nanoseconds since
  the Unix epoch);
* nil-able `*time.Time` fields become `Option Int`;
* fallible operations return `Except String`;
* the remote-service collaborators (`api.Client` methods) are abstract
  function-valued fields of client structures, constrained only by the
  hypotheses of each theorem.
-/

/-! ## String helpers (Go `strings` package operations used by the core) -/

/-- Go `strings.ToUpper`, modelled per character (ASCII case mapping,
which agrees with Go on the identifier alphabet used here). -/
def goToUpper (s : String) : String :=
  String.mk (s.data.map Char.toUpper)

/-- Go `strings.ToLower`, modelled per character. -/
def goToLower (s : String) : String :=
  String.mk (s.data.map Char.toLower)

/-- Go `strings.Contains(s, "|")`. -/
def containsPipe (s : String) : Bool :=
  decide ('|' ∈ s.data)

/-- First component of Go `strings.SplitN(s, "|", 2)`: the characters
before the first `|`. -/
def beforePipe (s : String) : String :=
  String.mk (s.data.takeWhile (fun c => c ≠ '|'))

/-! ## HumanIdCodec: `humanID` from `cmd/util.go`

Go source: if `len(couchDbID) < 6`, return `strings.ToUpper(couchDbID)`;
otherwise take the last 6 characters, reverse them with the two-index
swap loop (which computes list reversal), and uppercase the result. -/

/-- `humanID` from `cmd/util.go`: converts a CouchDB ID to the short
human-readable form. -/
def humanID (couchDbID : String) : String :=
  if couchDbID.length < 6 then goToUpper couchDbID
  else
    let last6 := couchDbID.data.drop (couchDbID.length - 6)
    goToUpper (String.mk last6.reverse)

/-! ## Civil-date arithmetic (the relevant fragment of Go `time`)

Go's `time.Date` normalizes an out-of-range month into the year and an
out-of-range day by adding `day - 1` days to the first of the normalized
month.  Days are counted since the Unix epoch with the standard
days-from-civil / civil-from-days conversions. -/

/-- Days since 1970-01-01 of the civil date `(y, m, d)` for `m ∈ [1,12]`
(`d` may be out of range: it simply offsets from the first of the month,
exactly as Go's `time.Date` normalization does). -/
def daysFromCivil (y m d : Int) : Int :=
  let y1 := if m ≤ 2 then y - 1 else y
  let era := y1.fdiv 400
  let yoe := y1 - era * 400
  let mp := (m + 9).emod 12
  let doy := (153 * mp + 2).fdiv 5 + d - 1
  let doe := yoe * 365 + yoe.fdiv 4 - yoe.fdiv 100 + doy
  era * 146097 + doe - 719468

/-- Civil date `(y, m, d)` of the day `z` days after 1970-01-01. -/
def civilFromDays (z0 : Int) : Int × Int × Int :=
  let z := z0 + 719468
  let era := z.fdiv 146097
  let doe := z - era * 146097
  let yoe := (doe - doe.fdiv 1460 + doe.fdiv 36524 - doe.fdiv 146096).fdiv 365
  let y := yoe + era * 400
  let doy := doe - (365 * yoe + yoe.fdiv 4 - yoe.fdiv 100)
  let mp := (5 * doy + 2).fdiv 153
  let d := doy - (153 * mp + 2).fdiv 5 + 1
  let m := if mp < 10 then mp + 3 else mp - 9
  (if m ≤ 2 then y + 1 else y, m, d)

/-- A Go `time.Time` value in civil form (the zone is already folded into
the fields; sub-second precision in nanoseconds). -/
structure GoTime where
  year : Int
  month : Int
  day : Int
  hour : Int
  minute : Int
  second : Int
  ns : Int
deriving DecidableEq, Repr

/-- Go `Time.AddDate(years, months, days)`: add to the civil fields and
normalize through `time.Date`. -/
def goAddDate (t : GoTime) (years months days : Int) : GoTime :=
  let y := t.year + years
  let m := t.month + months
  let y2 := y + (m - 1).fdiv 12
  let m2 := (m - 1).emod 12 + 1
  let total := daysFromCivil y2 m2 (t.day + days)
  let c := civilFromDays total
  { t with year := c.1, month := c.2.1, day := c.2.2 }

/-- Absolute instant (nanoseconds since the Unix epoch) of civil fields
with a zone offset of `offsetSec` seconds east of UTC. -/
def toUnixNs (y mo d h mi s ns offsetSec : Int) : Int :=
  (daysFromCivil y mo d * 86400 + h * 3600 + mi * 60 + s - offsetSec)
    * 1000000000 + ns

/-! ## `strconv.Atoi` on a digit string -/

/-- Numeric value of a list of decimal digit characters. -/
def digitsVal (cs : List Char) : Nat :=
  cs.foldl (fun acc c => acc * 10 + (c.toNat - 48)) 0

/-- Largest 64-bit signed integer (the CLI targets a 64-bit `int`). -/
def int64Max : Int := 9223372036854775807

/-- Go `strconv.Atoi` on a non-empty all-digit string: the value, clamped
to the 64-bit signed range, together with an `ok` flag that is `false` on
range overflow (Go returns `ErrRange` but still yields the clamped
value; the caller in `ParseRelativeTime` discards the error). -/
def goAtoi (s : String) : Int × Bool :=
  let v : Nat := digitsVal s.data
  if (v : Int) ≤ int64Max then ((v : Int), true) else (int64Max, false)

/-! ## `ParseRelativeTime` from the date-filter file

Go source: try the regex `^(\d+)(d|w|mo|y)$` first; on a match, convert
the digits with `strconv.Atoi` (error discarded) and subtract with
`AddDate`; otherwise try the absolute layout `2006-01-02`; otherwise
fail. -/

/-- Matcher for the anchored regex `^(\d+)(d|w|mo|y)$` (Go `\d` is the
ASCII digit class): on success returns the digit group and the unit
group.  The digit run is maximal, which coincides with the regex since
none of the unit alternatives starts with a digit. -/
def relMatch (s : String) : Option (String × String) :=
  if s.data.takeWhile Char.isDigit ≠ [] ∧
      (s.data.dropWhile Char.isDigit = ['d'] ∨
       s.data.dropWhile Char.isDigit = ['w'] ∨
       s.data.dropWhile Char.isDigit = ['m', 'o'] ∨
       s.data.dropWhile Char.isDigit = ['y'])
  then some (String.mk (s.data.takeWhile Char.isDigit),
    String.mk (s.data.dropWhile Char.isDigit))
  else none

/-- Number of days in a month, as validated by Go `time.Parse`. -/
def goDaysIn (y m : Int) : Int :=
  if m = 2 then
    if y.emod 4 = 0 ∧ (y.emod 100 ≠ 0 ∨ y.emod 400 = 0) then 29 else 28
  else if m = 4 ∨ m = 6 ∨ m = 9 ∨ m = 11 then 30
  else 31

/-- Value of a decimal digit character, if it is one. -/
def digitVal (c : Char) : Option Int :=
  if c.isDigit then some ((c.toNat : Int) - 48) else none

/-- Go `time.Parse("2006-01-02", s)`: exactly `YYYY-MM-DD` with the
month and day validated against the calendar; the result is midnight UTC
of that date. -/
def parseDateOnly (s : String) : Option GoTime :=
  match s.data with
  | [y1, y2, y3, y4, '-', m1, m2, '-', d1, d2] =>
    match digitVal y1, digitVal y2, digitVal y3, digitVal y4,
        digitVal m1, digitVal m2, digitVal d1, digitVal d2 with
    | some a, some b, some c, some d, some e, some f, some g, some h =>
      let y := a * 1000 + b * 100 + c * 10 + d
      let mo := e * 10 + f
      let da := g * 10 + h
      if 1 ≤ mo ∧ mo ≤ 12 ∧ 1 ≤ da ∧ da ≤ goDaysIn y mo then
        some ⟨y, mo, da, 0, 0, 0, 0⟩
      else none
    | _, _, _, _, _, _, _, _ => none
  | _ => none

/-! ## `parseAPIDate` from the date-filter file

Go tries, in order, the layouts `time.RFC3339`,
`"2006-01-02T15:04:05.000Z"`, `"2006-01-02T15:04:05Z"` (trailing literal
`Z`), `"2006-01-02T15:04:05"`, and `"2006-01-02"`, returning the first
success.  Absent zone information the time is taken as UTC.  Go's parser
also accepts a fractional second after the seconds field even when the
layout has none; that quirk is modelled in `parseFracOpt`. -/

/-- Read exactly two decimal digits. -/
def read2 : List Char → Option (Int × List Char)
  | a :: b :: rest =>
    match digitVal a, digitVal b with
    | some x, some y => some (x * 10 + y, rest)
    | _, _ => none
  | _ => none

/-- Read exactly four decimal digits. -/
def read4 : List Char → Option (Int × List Char)
  | a :: b :: c :: d :: rest =>
    match digitVal a, digitVal b, digitVal c, digitVal d with
    | some w, some x, some y, some z =>
      some (w * 1000 + x * 100 + y * 10 + z, rest)
    | _, _, _, _ => none
  | _ => none

/-- Parse `YYYY-MM-DD` with calendar validation, returning the remainder. -/
def parseDatePart (cs : List Char) : Option (Int × Int × Int × List Char) :=
  match read4 cs with
  | none => none
  | some (y, rest1) =>
    match rest1 with
    | '-' :: rest2 =>
      match read2 rest2 with
      | none => none
      | some (mo, rest3) =>
        match rest3 with
        | '-' :: rest4 =>
          match read2 rest4 with
          | none => none
          | some (da, rest5) =>
            if 1 ≤ mo ∧ mo ≤ 12 ∧ 1 ≤ da ∧ da ≤ goDaysIn y mo then
              some (y, mo, da, rest5)
            else none
        | _ => none
    | _ => none

/-- Parse `hh:mm:ss` with range validation, returning the remainder. -/
def parseClockPart (cs : List Char) : Option (Int × Int × Int × List Char) :=
  match read2 cs with
  | none => none
  | some (h, rest1) =>
    match rest1 with
    | ':' :: rest2 =>
      match read2 rest2 with
      | none => none
      | some (mi, rest3) =>
        match rest3 with
        | ':' :: rest4 =>
          match read2 rest4 with
          | none => none
          | some (s, rest5) =>
            if h ≤ 23 ∧ mi ≤ 59 ∧ s ≤ 59 then some (h, mi, s, rest5)
            else none
        | _ => none
    | _ => none

/-- Nanoseconds denoted by a fractional-second digit run (at most 9
digits, right-padded with zeros). -/
def nsOfFrac (ds : List Char) : Int :=
  (digitsVal ds : Int) * (10 : Int) ^ (9 - ds.length)

/-- Optional fractional second after the seconds field, as consumed by Go
even for layouts without a fraction: a `.` followed by at least one digit
is consumed (at most 9 digits, more is an error); anything else consumes
nothing. -/
def parseFracOpt (cs : List Char) : Option (Int × List Char) :=
  match cs with
  | '.' :: c :: rest =>
    if c.isDigit then
      let ds := (c :: rest).takeWhile Char.isDigit
      let tail := (c :: rest).dropWhile Char.isDigit
      if ds.length ≤ 9 then some (nsOfFrac ds, tail) else none
    else some (0, cs)
  | _ => some (0, cs)

/-- Zone suffix of the RFC3339 layout: `Z` for UTC or `±hh:mm`, giving
the offset in seconds east of UTC. -/
def parseZonePart (cs : List Char) : Option (Int × List Char) :=
  match cs with
  | 'Z' :: rest => some (0, rest)
  | '+' :: rest =>
    match read2 rest with
    | some (h, ':' :: rest2) =>
      match read2 rest2 with
      | some (m, rest3) => some ((h * 60 + m) * 60, rest3)
      | none => none
    | _ => none
  | '-' :: rest =>
    match read2 rest with
    | some (h, ':' :: rest2) =>
      match read2 rest2 with
      | some (m, rest3) => some (-((h * 60 + m) * 60), rest3)
      | none => none
    | _ => none
  | _ => none

/-- Layout `time.RFC3339`: `YYYY-MM-DDThh:mm:ss[.fff]Z|±hh:mm`. -/
def parseRFC3339 (cs : List Char) : Option Int :=
  match parseDatePart cs with
  | none => none
  | some (y, mo, da, rest1) =>
    match rest1 with
    | 'T' :: rest2 =>
      match parseClockPart rest2 with
      | none => none
      | some (h, mi, s, rest3) =>
        match parseFracOpt rest3 with
        | none => none
        | some (ns, rest4) =>
          match parseZonePart rest4 with
          | some (off, []) => some (toUnixNs y mo da h mi s ns off)
          | _ => none
    | _ => none

/-- Layout `"2006-01-02T15:04:05.000Z"`: exactly three fractional digits
then a literal `Z`. -/
def parseMs000Z (cs : List Char) : Option Int :=
  match parseDatePart cs with
  | none => none
  | some (y, mo, da, rest1) =>
    match rest1 with
    | 'T' :: rest2 =>
      match parseClockPart rest2 with
      | none => none
      | some (h, mi, s, rest3) =>
        match rest3 with
        | '.' :: a :: b :: c :: 'Z' :: [] =>
          match digitVal a, digitVal b, digitVal c with
          | some x, some y2, some z =>
            some (toUnixNs y mo da h mi s ((x * 100 + y2 * 10 + z) * 1000000) 0)
          | _, _, _ => none
        | _ => none
    | _ => none

/-- Layout `"2006-01-02T15:04:05Z"`: a literal trailing `Z` (no zone),
with Go's implicit optional fraction after the seconds. -/
def parseSecZ (cs : List Char) : Option Int :=
  match parseDatePart cs with
  | none => none
  | some (y, mo, da, rest1) =>
    match rest1 with
    | 'T' :: rest2 =>
      match parseClockPart rest2 with
      | none => none
      | some (h, mi, s, rest3) =>
        match parseFracOpt rest3 with
        | some (ns, ['Z']) => some (toUnixNs y mo da h mi s ns 0)
        | _ => none
    | _ => none

/-- Layout `"2006-01-02T15:04:05"`: no zone, taken as UTC, with Go's
implicit optional fraction. -/
def parseSecNoZone (cs : List Char) : Option Int :=
  match parseDatePart cs with
  | none => none
  | some (y, mo, da, rest1) =>
    match rest1 with
    | 'T' :: rest2 =>
      match parseClockPart rest2 with
      | none => none
      | some (h, mi, s, rest3) =>
        match parseFracOpt rest3 with
        | some (ns, []) => some (toUnixNs y mo da h mi s ns 0)
        | _ => none
    | _ => none

/-- Layout `"2006-01-02"`: a bare date, midnight UTC. -/
def parseBareDate (cs : List Char) : Option Int :=
  match parseDatePart cs with
  | some (y, mo, da, []) => some (toUnixNs y mo da 0 0 0 0 0)
  | _ => none

/-- `parseAPIDate` from the date-filter file: the empty string is
rejected up front, then the five layouts are tried in order.  The result
is the absolute instant in nanoseconds since the Unix epoch. -/
def parseAPIDate (s : String) : Option Int :=
  if s = "" then none
  else
    (parseRFC3339 s.data).orElse fun _ =>
    (parseMs000Z s.data).orElse fun _ =>
    (parseSecZ s.data).orElse fun _ =>
    (parseSecNoZone s.data).orElse fun _ =>
    parseBareDate s.data

/-! ## `DateFilterSet` -/

/-- `DateFilterSet` from the date-filter file: each bound is a nil-able
`*time.Time`, modelled as an optional absolute instant. -/
structure DateFilterSet where
  CreatedAfter : Option Int
  CreatedBefore : Option Int
  ModifiedAfter : Option Int
  ModifiedBefore : Option Int
deriving DecidableEq, Repr

/-- `HasDateFilters` from the date-filter file. -/
def DateFilterSet.HasDateFilters (f : DateFilterSet) : Bool :=
  f.CreatedAfter.isSome || f.CreatedBefore.isSome ||
    f.ModifiedAfter.isSome || f.ModifiedBefore.isSome

/-- One field block of `MatchesDates`: when either bound is active, the
string must parse and the parsed instant must violate neither bound
(`t.Before(a)` is `t < a` and `t.After(b)` is `b < t` on absolute
instants). -/
def checkDateRange (after before : Option Int) (str : String) : Bool :=
  if after.isSome || before.isSome then
    match parseAPIDate str with
    | none => false
    | some t =>
      (match after with | some a => !(decide (t < a)) | none => true) &&
      (match before with | some b => !(decide (b < t)) | none => true)
  else true

/-- `MatchesDates` from the date-filter file: the created block runs
first and short-circuits to `false`, then the modified block. -/
def DateFilterSet.MatchesDates (f : DateFilterSet)
    (createdStr modifiedStr : String) : Bool :=
  checkDateRange f.CreatedAfter f.CreatedBefore createdStr &&
    checkDateRange f.ModifiedAfter f.ModifiedBefore modifiedStr

/-- `ParseRelativeTime` from the date-filter file, with the ambient
`time.Now()` passed explicitly. -/
def ParseRelativeTime (now : GoTime) (s : String) : Except String GoTime :=
  match relMatch s with
  | some (digits, unit) =>
    let n := (goAtoi digits).fst
    if unit = "d" then .ok (goAddDate now 0 0 (-n))
    else if unit = "w" then .ok (goAddDate now 0 0 (-n * 7))
    else if unit = "mo" then .ok (goAddDate now 0 (-n) 0)
    else .ok (goAddDate now (-n) 0 0)
  | none =>
    match parseDateOnly s with
    | some t => .ok t
    | none =>
      .error ("invalid time expression \"" ++ s ++
        "\" (use e.g. 3d, 2w, 1mo, 1y, or 2026-01-15)")

/-- Whether an `Except` value is a success. -/
def exceptIsOk : Except ε α → Bool
  | .ok _ => true
  | .error _ => false

/-! ## The success domain of `ParseRelativeTime` -/

/-- The language of the anchored regex `^(\d+)(d|w|mo|y)$`, stated
directly from the spec's words: a non-empty digit run followed by one of
the four unit suffixes. -/
def relRegexMatches (s : String) : Prop :=
  ∃ ds u : List Char, ds ≠ [] ∧ (∀ c ∈ ds, c.isDigit = true) ∧
    (u = ['d'] ∨ u = ['w'] ∨ u = ['m', 'o'] ∨ u = ['y']) ∧
    s.data = ds ++ u

/-! ## EntityResolver: `findTicketByHumanID` from `cmd/tickets.go`

The `api.Client` collaborator is abstract: its three operations used by
the resolver are function-valued fields, constrained only by theorem
hypotheses.  Go errors become `Except.error` with the error text. -/

/-- The fields of `api.Project` read by the resolver and the list
command (the remaining JSON fields are never touched by this core). -/
structure GoProject where
  projectID : String
  projectName : String
  isActive : Bool
deriving DecidableEq, Repr

/-- Spec-side `ProjectHandle.isArchivalOnly`: the special glacier bucket
is the project with this fixed id. -/
def GoProject.isArchivalOnly (p : GoProject) : Bool :=
  p.projectID = "glacier_project_documents"

/-- `api.TicketDates` (the two fields read by the date filter). -/
structure GoTicketDates where
  creationDate : String
  lastModified : String
deriving DecidableEq, Repr

/-- The fields of `api.Ticket` read by the resolver and the list loop:
`ID` is the optional compound `"project|couchDbId"` form returned by the
search endpoint, `CouchDbID` the plain record id, `Dates` the nil-able
dates struct. -/
structure GoTicket where
  id : String
  couchDbID : String
  dates : Option GoTicketDates
deriving DecidableEq, Repr

/-- The `api.Client` operations used by `findTicketByHumanID`:
`ListProjects` (with the empty options struct), `SearchTicketsByID`
(one batched call over the candidate project ids), and `GetTicket`
(the per-project fallback probe). -/
structure TicketsClient where
  listProjects : Except String (List GoProject)
  searchTicketsByID : List String → String → Except String (List GoTicket)
  getTicket : String → String → Except String GoTicket

/-- Candidate project ids of the resolver: the scoped database when one
is given, otherwise every listed project that is not the glacier bucket
and is active (`if project.ProjectID == "glacier_project_documents" ||
!project.IsActive { continue }`). -/
def candidateProjectIDs (client : TicketsClient)
    (limitToDatabase : String) : Except String (List String) :=
  if limitToDatabase ≠ "" then .ok [limitToDatabase]
  else
    match client.listProjects with
    | .error e => .error e
    | .ok projects =>
      .ok ((projects.filter (fun p =>
        !(p.projectID = "glacier_project_documents" || !p.isActive))).map
          (fun p => p.projectID))

/-- The fallback probe: `GetTicket` on each candidate project in order,
returning the first project where the call succeeds. -/
def probeProjects (client : TicketsClient) (couchDbID : String) :
    List String → Option String
  | [] => none
  | p :: ps =>
    match client.getTicket p couchDbID with
    | .ok _ => some p
    | .error _ => probeProjects client couchDbID ps

/-- The verification loop over the search results: the first ticket whose
recomputed `humanID` equals the requested id wins; its project comes from
the compound `ID` field when present, else from the fallback probe; a
ticket whose probe also fails is skipped. -/
def resolveTicketLoop (client : TicketsClient) (searchID : String)
    (projectIDs : List String) : List GoTicket → Option (String × String)
  | [] => none
  | t :: ts =>
    if humanID t.couchDbID = searchID then
      if t.id ≠ "" ∧ containsPipe t.id then
        some (beforePipe t.id, t.couchDbID)
      else
        match probeProjects client t.couchDbID projectIDs with
        | some projectID => some (projectID, t.couchDbID)
        | none => resolveTicketLoop client searchID projectIDs ts
    else resolveTicketLoop client searchID projectIDs ts

/-- `findTicketByHumanID` from `cmd/tickets.go`: normalize the requested
id to uppercase, determine the candidate projects, issue the single
batched search with the lowercased id, and scan the results. -/
def findTicketByHumanID (client : TicketsClient)
    (searchID0 limitToDatabase : String) : Except String (String × String) :=
  let searchID := goToUpper searchID0
  match candidateProjectIDs client limitToDatabase with
  | .error e => .error e
  | .ok projectIDs =>
    match client.searchTicketsByID projectIDs (goToLower searchID) with
    | .error e => .error e
    | .ok tickets =>
      match resolveTicketLoop client searchID projectIDs tickets with
      | some r => .ok r
      | none => .error ("ticket with ID " ++ searchID ++ " not found")

/-! ## The date-filtered list loop of `TicketsListCmd.Run`

The single-project branch with active date filters over-fetches with
`fetchSize := Limit * 3` capped at 200, pages through the backend, keeps
only records passing `MatchesDates`, and stops when the limit is
satisfied or a page comes back shorter than the fetch size.  The backend
is modelled as the list of successive `ListTickets` results for pages
0, 1, 2, …; a page past the end of that list returns no records (a
backend holds finitely many records, so an out-of-range page is empty
and, with the positive fetch size used by the command, ends the loop). -/

/-- The created/modified strings of a ticket as extracted by the loop
(`""` when `Dates` is nil). -/
def ticketCreatedStr (t : GoTicket) : String :=
  match t.dates with
  | some d => d.creationDate
  | none => ""

/-- The modified string of a ticket as extracted by the loop. -/
def ticketModifiedStr (t : GoTicket) : String :=
  match t.dates with
  | some d => d.lastModified
  | none => ""

/-- The filter test applied to one ticket by the loop. -/
def ticketMatchesDates (filters : DateFilterSet) (t : GoTicket) : Bool :=
  filters.MatchesDates (ticketCreatedStr t) (ticketModifiedStr t)

/-- The fetch size of the over-fetching loop: `Limit * 3`, capped at
200. -/
def ticketsFetchSize (limit : Int) : Int :=
  if limit * 3 > 200 then 200 else limit * 3

/-- The inner `for` of the loop: append each ticket passing the filter,
stopping the page scan as soon as the accumulator reaches the limit. -/
def accumulateMatches (filters : DateFilterSet) (limit : Int)
    (acc : List GoTicket) : List GoTicket → List GoTicket
  | [] => acc
  | t :: ts =>
    if ticketMatchesDates filters t then
      if limit ≤ ((acc ++ [t]).length : Int) then acc ++ [t]
      else accumulateMatches filters limit (acc ++ [t]) ts
    else accumulateMatches filters limit acc ts

/-- The outer `for` of the loop.  `fuel` bounds the number of fetches;
the caller passes `pages.length + 1`, which the loop never exhausts
because an out-of-range page is empty and ends it (the fetch size used by
the command is positive). -/
def ticketsFetchLoop (filters : DateFilterSet) (limit fetchSize : Int) :
    Nat → List (Except String (List GoTicket)) → List GoTicket →
      Except String (List GoTicket)
  | 0, _, acc => .ok acc
  | fuel + 1, pages, acc =>
    match pages.headD (.ok []) with
    | .error e => .error e
    | .ok tickets =>
      let acc2 := accumulateMatches filters limit acc tickets
      if limit ≤ (acc2.length : Int) ∨ (tickets.length : Int) < fetchSize
      then .ok acc2
      else ticketsFetchLoop filters limit fetchSize fuel pages.tail acc2

/-- The date-filtered single-project branch of `TicketsListCmd.Run`:
run the loop from an empty accumulator, then truncate to the limit. -/
def ticketsListDateFiltered (filters : DateFilterSet) (limit : Int)
    (pages : List (Except String (List GoTicket))) :
    Except String (List GoTicket) :=
  match ticketsFetchLoop filters limit (ticketsFetchSize limit)
      (pages.length + 1) pages [] with
  | .error e => .error e
  | .ok allTickets =>
    .ok (if limit < (allTickets.length : Int)
      then allTickets.take limit.toNat else allTickets)

/-! ## UploadPipeline: `MapsAddCmd.Run` from `cmd/maps.go`

The pipeline is embedded from the point where the local file has been
read and stat'ed successfully (the file's base name, bytes and size are
inputs; an OS read failure aborts before any remote call).  The result
of the file-type validation — `isValidMapFileType`, whose body lives
outside the embedded sources — is passed in as a boolean.  Every remote
call is recorded in an `ApiCall` trace so that "the conversion job is
never submitted" is a statement about the trace. -/

/-- Go `strings.HasSuffix`. -/
def goHasSuffix (s suffix : String) : Bool :=
  suffix.data.isSuffixOf s.data

/-- `getContentType` from `cmd/files.go`: extension-based content type
of the given path, first match in Go's switch order. -/
def getContentType (filename : String) : String :=
  let lower := goToLower filename
  if goHasSuffix lower ".pdf" then "application/pdf"
  else if goHasSuffix lower ".png" then "image/png"
  else if goHasSuffix lower ".jpg" || goHasSuffix lower ".jpeg" then
    "image/jpeg"
  else if goHasSuffix lower ".gif" then "image/gif"
  else if goHasSuffix lower ".svg" then "image/svg+xml"
  else if goHasSuffix lower ".webp" then "image/webp"
  else if goHasSuffix lower ".bmp" then "image/bmp"
  else if goHasSuffix lower ".tiff" || goHasSuffix lower ".tif" then
    "image/tiff"
  else if goHasSuffix lower ".doc" then "application/msword"
  else if goHasSuffix lower ".docx" then
    "application/vnd.openxmlformats-officedocument.wordprocessingml.document"
  else if goHasSuffix lower ".xls" then "application/vnd.ms-excel"
  else if goHasSuffix lower ".xlsx" then
    "application/vnd.openxmlformats-officedocument.spreadsheetml.sheet"
  else if goHasSuffix lower ".txt" then "text/plain"
  else "application/octet-stream"

/-- The fields of `api.File` read by the pipeline. -/
structure GoFile where
  id : String
  couchID : String
  couchDbID : String
  name : String
  fileName : String
  versionID : String
deriving DecidableEq, Repr

/-- `api.InitiateUploadResponse` (the field used). -/
structure InitiateUploadResponse where
  uuid : String
deriving DecidableEq, Repr

/-- `api.CompleteUploadResponse` (the field used). -/
structure CompleteUploadResponse where
  signedURL : String
deriving DecidableEq, Repr

/-- `api.CreateFileResponse` (the fields used). -/
structure CreateFileResponse where
  code : Int
  message : String
deriving DecidableEq, Repr

/-- `api.FileGroup` (the field used). -/
structure GoFileGroup where
  name : String
deriving DecidableEq, Repr

/-- `api.CreateFileOptions`. -/
structure CreateFileOptions where
  database : String
  fileName : String
  uploadedName : String
  fileURL : String
  fileGroupID : String
  contentType : String
  size : Int
  tags : List String
deriving DecidableEq, Repr

/-- `api.ListFilesOptions` (the fields set by the pipeline). -/
structure ListFilesOptions where
  database : String
  size : Int
  sortBy : String
  sortOrder : String
deriving DecidableEq, Repr

/-- File payload bytes. -/
abbrev ByteSeq := List Nat

/-- One remote call issued by the pipeline, recorded in order. -/
inductive ApiCall where
  | initiateUpload (database uploadName : String)
  | uploadChunk (uuid uploadName : String) (index : Nat) (data : ByteSeq)
  | completeUpload (uuid uploadName : String)
  | createFile (opts : CreateFileOptions)
  | listFiles (opts : ListFilesOptions)
  | getFile (database fileID : String)
  | getFileGroup (database groupID : String)
  | convertFileToMap (database fileID versionID name groupName : String)
deriving DecidableEq, Repr

/-- The `api.Client` operations used by `MapsAddCmd.Run`. -/
structure MapsClient where
  initiateUpload : String → String → Except String InitiateUploadResponse
  uploadChunk : String → String → Nat → ByteSeq → Except String Unit
  completeUpload : String → String → Except String CompleteUploadResponse
  createFile : CreateFileOptions → Except String CreateFileResponse
  listFiles : ListFilesOptions → Except String (List GoFile)
  getFile : String → String → Except String GoFile
  getFileGroup : String → String → Except String GoFileGroup
  convertFileToMap : String → String → String → String → String →
    Except String Unit

/-- The extension of a file name: from the last `.` onward, empty when
there is no dot (`strings.LastIndex(name, ".")`). -/
def fileExt (name : String) : String :=
  if '.' ∈ name.data then
    String.mk ('.' :: (name.data.reverse.takeWhile (fun c => c ≠ '.')).reverse)
  else ""

/-- The display name: the `-n` flag when given, else the file's base
name. -/
def mapsDisplayName (nameArg fileBaseName : String) : String :=
  if nameArg ≠ "" then nameArg else fileBaseName

/-- The generated upload name: base name, a `-` and the millisecond
timestamp, then the extension. -/
def mapsUploadName (fileBaseName : String) (nowMillis : Int) : String :=
  let ext := fileExt fileBaseName
  let baseName := String.mk
    (fileBaseName.data.take (fileBaseName.data.length - ext.data.length))
  baseName ++ "-" ++ toString nowMillis ++ ext

/-- The name under which a listed file is compared to the display name:
`FileName` when non-empty, else `Name`. -/
def fileScanName (f : GoFile) : String :=
  if f.fileName ≠ "" then f.fileName else f.name

/-- The linear scan of the recent-files page for the first exact
display-name match. -/
def findUploadedFile (displayName : String) : List GoFile → Option GoFile
  | [] => none
  | f :: fs =>
    if fileScanName f = displayName then some f
    else findUploadedFile displayName fs

/-- The characters after the first `|`. -/
def afterPipe (s : String) : String :=
  String.mk ((s.data.dropWhile (fun c => c ≠ '|')).tail)

/-- The record id of the discovered file: `CouchDbID`, else `CouchID`,
else the tail of a compound `ID`. -/
def extractFileID (f : GoFile) : String :=
  if f.couchDbID ≠ "" then f.couchDbID
  else if f.couchID ≠ "" then f.couchID
  else if f.id ≠ "" ∧ containsPipe f.id then afterPipe f.id
  else ""

/-- Whether a trace entry is a conversion-job submission. -/
def isConvertCall : ApiCall → Bool
  | .convertFileToMap _ _ _ _ _ => true
  | _ => false

/-- `MapsAddCmd.Run` from `cmd/maps.go`, from the point where the local
file was read: validation, the three upload stages, record creation, the
settle-and-scan discovery, enrichment, and conversion.  Returns the
discovered record id (printed by the command) or the failing stage's
error, together with the ordered remote-call trace.  The fixed settle
sleep before the scan performs no remote call and is not modelled. -/
def mapsAddRun (client : MapsClient)
    (db fileGroupID filePath fileBaseName nameArg : String)
    (fileData : ByteSeq) (fileSize : Int) (tags : List String)
    (nowMillis : Int) (fileTypeValid : Bool) :
    Except String String × List ApiCall :=
  if fileTypeValid = false then
    (.error "invalid file type: only PDF, PNG, and JPG files can be converted to maps",
     [])
  else
    let displayName := mapsDisplayName nameArg fileBaseName
    let uploadName := mapsUploadName fileBaseName nowMillis
    let contentType := getContentType filePath
    let tr1 := [ApiCall.initiateUpload db uploadName]
    match client.initiateUpload db uploadName with
    | .error e => (.error ("initiating upload: " ++ e), tr1)
    | .ok initResp =>
      let tr2 := tr1 ++ [ApiCall.uploadChunk initResp.uuid uploadName 0 fileData]
      match client.uploadChunk initResp.uuid uploadName 0 fileData with
      | .error e => (.error ("uploading file: " ++ e), tr2)
      | .ok _ =>
        let tr3 := tr2 ++ [ApiCall.completeUpload initResp.uuid uploadName]
        match client.completeUpload initResp.uuid uploadName with
        | .error e => (.error ("completing upload: " ++ e), tr3)
        | .ok completeResp =>
          let opts : CreateFileOptions :=
            { database := db, fileName := displayName,
              uploadedName := uploadName, fileURL := completeResp.signedURL,
              fileGroupID := fileGroupID, contentType := contentType,
              size := fileSize, tags := tags }
          let tr4 := tr3 ++ [ApiCall.createFile opts]
          match client.createFile opts with
          | .error e => (.error ("creating file: " ++ e), tr4)
          | .ok fileResp =>
            if fileResp.code ≠ 200 then
              (.error ("file creation failed: " ++ fileResp.message), tr4)
            else
              let lopts : ListFilesOptions :=
                { database := db, size := 20, sortBy := "CREATIONDATE",
                  sortOrder := "DESC" }
              let tr5 := tr4 ++ [ApiCall.listFiles lopts]
              match client.listFiles lopts with
              | .error e => (.error ("finding uploaded file: " ++ e), tr5)
              | .ok files =>
                match findUploadedFile displayName files with
                | none =>
                  (.error ("could not find uploaded file '" ++ displayName ++
                    "' (searched " ++ toString files.length ++
                    " recent files)"), tr5)
                | some uploadedFile =>
                  let fileID := extractFileID uploadedFile
                  let tr6 := tr5 ++ [ApiCall.getFile db fileID]
                  match client.getFile db fileID with
                  | .error e => (.error ("getting file details: " ++ e), tr6)
                  | .ok fullFile =>
                    if fullFile.versionID = "" then
                      (.error "file has no versionId, cannot convert to map",
                       tr6)
                    else
                      let tr7 := tr6 ++ [ApiCall.getFileGroup db fileGroupID]
                      let groupName :=
                        match client.getFileGroup db fileGroupID with
                        | .ok group =>
                          if group.name ≠ "" then group.name else ""
                        | .error _ => ""
                      let tr8 := tr7 ++ [ApiCall.convertFileToMap db
                        fullFile.couchDbID fullFile.versionID displayName
                        groupName]
                      match client.convertFileToMap db fullFile.couchDbID
                          fullFile.versionID displayName groupName with
                      | .error e => (.error ("converting to map: " ++ e), tr8)
                      | .ok _ => (.ok fullFile.couchDbID, tr8)

/-! ## Theorems -/

/-- Dropping all but the last `n` elements and reversing is the same as
taking `n` from the reversed list. -/
theorem drop_reverse_eq_reverse_take (l : List Char) (n : Nat) (h : n ≤ l.length) :
    (l.drop (l.length - n)).reverse = l.reverse.take n := by
  induction l with
  | nil => simp
  | cons a l ih =>
    rcases Nat.eq_or_lt_of_le h with h1 | h1
    · subst h1
      simp
    · have hn : n ≤ l.length := by
        simpa [Nat.lt_succ_iff] using h1
      have hs : (a :: l).length - n = (l.length - n) + 1 := by
        simp only [List.length_cons]
        omega
      rw [hs]
      simp only [List.drop_succ_cons, List.reverse_cons]
      rw [ih hn, List.take_append_of_le_length]
      simpa using hn

/-- C2: `Encode(s)` is `uppercase(s)` when the length of `s` is below 6,
and otherwise the uppercase of the reversal of the last 6 characters of
`s`; in particular `Encode("d67c1aba0b017a1c9372e726c6512a1f") = "F1A215"`.
`Encode` is a total function with no failure mode (it is a plain Lean
`def`, hence total and deterministic by construction). -/
theorem humanID_spec :
    (∀ s : String,
      (s.length < 6 → humanID s = goToUpper s) ∧
      (6 ≤ s.length →
        humanID s = String.mk ((s.data.reverse.take 6).map Char.toUpper))) ∧
    humanID "d67c1aba0b017a1c9372e726c6512a1f" = "F1A215" := by
  refine ⟨fun s => ⟨fun h => ?_, fun h => ?_⟩, by decide⟩
  · simp [humanID, h]
  · have hlen : ¬ s.length < 6 := by omega
    have h6 : 6 ≤ s.data.length := h
    simp only [humanID, hlen, if_false, goToUpper]
    rw [show s.length = s.data.length from rfl,
      drop_reverse_eq_reverse_take s.data 6 h6]

/-- Witness for C2 at concrete inputs: a short string is just uppercased,
and a 32-character CouchDB ID maps to the reversed-uppercased last 6. -/
theorem humanID_spec_witness :
    humanID "ab1" = goToUpper "ab1" ∧
    humanID "e4fcf23e74fe3a9c74dec23350b554cc" =
      String.mk (("e4fcf23e74fe3a9c74dec23350b554cc".data.reverse.take 6).map
        Char.toUpper) :=
  ⟨(humanID_spec.1 "ab1").1 (by decide),
   (humanID_spec.1 "e4fcf23e74fe3a9c74dec23350b554cc").2 (by decide)⟩

/-- C9: `Encode` is not a round-trippable transform: there is a string
`x` with `Encode(Encode(x)) ≠ x`. -/
theorem humanID_not_roundtrip :
    ∃ x : String, humanID (humanID x) ≠ x :=
  ⟨"d67c1aba0b017a1c9372e726c6512a1f", by decide⟩

/-! ## Theorems about the date-filter component -/

/-- C3: `MatchesDates` fails closed.  A filter set with no active bound
matches everything; a filter set with an active bound on a timestamp
field returns `false` whenever the corresponding input string does not
parse under the fixed layout list — and the empty string never parses. -/
theorem MatchesDates_fail_closed :
    (∀ (f : DateFilterSet) (c m : String),
      f.HasDateFilters = false → f.MatchesDates c m = true) ∧
    (∀ (f : DateFilterSet) (c m : String),
      (f.CreatedAfter.isSome = true ∨ f.CreatedBefore.isSome = true) →
      parseAPIDate c = none → f.MatchesDates c m = false) ∧
    (∀ (f : DateFilterSet) (c m : String),
      (f.ModifiedAfter.isSome = true ∨ f.ModifiedBefore.isSome = true) →
      parseAPIDate m = none → f.MatchesDates c m = false) ∧
    parseAPIDate "" = none := by
  refine ⟨fun f c m h => ?_, fun f c m h hp => ?_, fun f c m h hp => ?_, rfl⟩
  · simp only [DateFilterSet.HasDateFilters, Bool.or_eq_false_iff] at h
    obtain ⟨⟨⟨h1, h2⟩, h3⟩, h4⟩ := h
    simp [DateFilterSet.MatchesDates, checkDateRange, h1, h2, h3, h4]
  · have hact : (f.CreatedAfter.isSome || f.CreatedBefore.isSome) = true := by
      rcases h with h | h <;> simp [h]
    simp [DateFilterSet.MatchesDates, checkDateRange, hact, hp]
  · have hact : (f.ModifiedAfter.isSome || f.ModifiedBefore.isSome) = true := by
      rcases h with h | h <;> simp [h]
    simp [DateFilterSet.MatchesDates, checkDateRange, hact, hp]

/-- Witness for C3: an active created bound with an empty created string
fails, an active modified bound with an unparseable modified string
fails, and the empty filter set matches. -/
theorem MatchesDates_fail_closed_witness :
    DateFilterSet.MatchesDates ⟨some 0, none, none, none⟩ "" "x" = false ∧
    DateFilterSet.MatchesDates ⟨none, none, none, some 0⟩
      "2026-01-15" "not-a-date" = false ∧
    DateFilterSet.MatchesDates ⟨none, none, none, none⟩ "" "" = true :=
  ⟨MatchesDates_fail_closed.2.1 ⟨some 0, none, none, none⟩ "" "x"
      (Or.inl (by decide)) (by decide),
   MatchesDates_fail_closed.2.2.1 ⟨none, none, none, some 0⟩
      "2026-01-15" "not-a-date" (Or.inr (by decide)) (by decide),
   MatchesDates_fail_closed.1 ⟨none, none, none, none⟩ "" "" (by decide)⟩

/-- Splitting at a digit boundary: `takeWhile`/`dropWhile` recover the
two halves when the left half is all digits and the right half starts
with a non-digit. -/
theorem takeWhile_append_not (p : Char → Bool) (ds u : List Char)
    (h1 : ∀ c ∈ ds, p c = true) (h2 : ∀ c, u.head? = some c → p c = false) :
    (ds ++ u).takeWhile p = ds ∧ (ds ++ u).dropWhile p = u := by
  induction ds with
  | nil =>
    cases u with
    | nil => simp
    | cons c cs =>
      have hc := h2 c rfl
      simp [List.takeWhile_cons, List.dropWhile_cons, hc]
  | cons a ds ih =>
    have ha := h1 a (by simp)
    have ih2 := ih (fun c hc => h1 c (by simp [hc]))
    simp [List.takeWhile_cons, List.dropWhile_cons, ha, ih2.1, ih2.2]

/-- Every element of `takeWhile p l` satisfies `p`. -/
theorem mem_takeWhile_sat (p : Char → Bool) (l : List Char) :
    ∀ c ∈ l.takeWhile p, p c = true := by
  induction l with
  | nil => simp
  | cons a l ih =>
    intro c hc
    by_cases hp : p a
    · rw [List.takeWhile_cons, if_pos hp] at hc
      rcases List.mem_cons.mp hc with h | h
      · exact h ▸ hp
      · exact ih c h
    · rw [List.takeWhile_cons, if_neg hp] at hc
      exact absurd hc (List.not_mem_nil c)

/-- The executable matcher `relMatch` recognizes exactly the language of
the regex. -/
theorem relMatch_iff (s : String) :
    (∃ r, relMatch s = some r) ↔ relRegexMatches s := by
  constructor
  · rintro ⟨r, hr⟩
    unfold relMatch at hr
    split at hr
    · rename_i hcond
      refine ⟨s.data.takeWhile Char.isDigit, s.data.dropWhile Char.isDigit,
        hcond.1, mem_takeWhile_sat _ _, hcond.2,
        (List.takeWhile_append_dropWhile ..).symm⟩
    · exact absurd hr (by simp)
  · rintro ⟨ds, u, hne, hdig, hu, hsplit⟩
    have hhead : ∀ c, u.head? = some c → Char.isDigit c = false := by
      intro c hc
      rcases hu with h | h | h | h <;> subst h <;>
        simp only [List.head?_cons, Option.some.injEq] at hc <;>
        exact hc ▸ rfl
    have hsp := takeWhile_append_not Char.isDigit ds u hdig hhead
    refine ⟨(String.mk ds, String.mk u), ?_⟩
    unfold relMatch
    rw [hsplit, hsp.1, hsp.2, if_pos ⟨hne, hu⟩]

/-- On a regex match, `ParseRelativeTime` always succeeds (the four unit
branches all return a value). -/
theorem ParseRelativeTime_ok_of_relMatch (now : GoTime) (s : String)
    (r : String × String) (h : relMatch s = some r) :
    ∃ t, ParseRelativeTime now s = .ok t := by
  obtain ⟨ds, u⟩ := r
  unfold ParseRelativeTime
  rw [h]
  dsimp only
  by_cases h1 : u = "d"
  · rw [if_pos h1]; exact ⟨_, rfl⟩
  · rw [if_neg h1]
    by_cases h2 : u = "w"
    · rw [if_pos h2]; exact ⟨_, rfl⟩
    · rw [if_neg h2]
      by_cases h3 : u = "mo"
      · rw [if_pos h3]; exact ⟨_, rfl⟩
      · rw [if_neg h3]; exact ⟨_, rfl⟩

/-- C6: `ParseRelativeTime` succeeds exactly on inputs in the language of
`^(\d+)(d|w|mo|y)$` or on a valid plain `YYYY-MM-DD` date; the matching
relative forms subtract with the calendar-aware `AddDate` (shown here for
the day and month units); and `"abc"`, `"3x"` and `""` all fail. -/
theorem ParseRelativeTime_domain :
    (∀ (now : GoTime) (s : String),
      (∃ t, ParseRelativeTime now s = .ok t) ↔
        (relRegexMatches s ∨ parseDateOnly s ≠ none)) ∧
    (∀ (now : GoTime) (s ds : String), relMatch s = some (ds, "d") →
      ParseRelativeTime now s = .ok (goAddDate now 0 0 (-(goAtoi ds).1))) ∧
    (∀ (now : GoTime) (s ds : String), relMatch s = some (ds, "mo") →
      ParseRelativeTime now s = .ok (goAddDate now 0 (-(goAtoi ds).1) 0)) ∧
    (∀ now : GoTime,
      exceptIsOk (ParseRelativeTime now "abc") = false ∧
      exceptIsOk (ParseRelativeTime now "3x") = false ∧
      exceptIsOk (ParseRelativeTime now "") = false) := by
  refine ⟨fun now s => ⟨fun hok => ?_, fun hcond => ?_⟩,
    fun now s ds h => ?_, fun now s ds h => ?_, fun now => ⟨rfl, rfl, rfl⟩⟩
  · by_cases hm : ∃ r, relMatch s = some r
    · exact Or.inl ((relMatch_iff s).mp hm)
    · have hnone : relMatch s = none := by
        cases hrm : relMatch s with
        | none => rfl
        | some r => exact absurd ⟨r, hrm⟩ hm
      right
      intro hpd
      obtain ⟨t, ht⟩ := hok
      unfold ParseRelativeTime at ht
      rw [hnone, hpd] at ht
      exact absurd ht (by simp)
  · rcases hcond with hre | hpd
    · obtain ⟨r, hr⟩ := (relMatch_iff s).mpr hre
      exact ParseRelativeTime_ok_of_relMatch now s r hr
    · cases hm : relMatch s with
      | some r => exact ParseRelativeTime_ok_of_relMatch now s r hm
      | none =>
        cases hd : parseDateOnly s with
        | none => exact absurd hd hpd
        | some t =>
          refine ⟨t, ?_⟩
          unfold ParseRelativeTime
          rw [hm, hd]
  · unfold ParseRelativeTime
    rw [h]
    dsimp only
    rw [if_pos rfl]
  · unfold ParseRelativeTime
    rw [h]
    dsimp only
    rw [if_neg (by decide), if_neg (by decide), if_pos rfl]

/-- Witness for C6: `"3d"` and `"2026-01-15"` succeed, `"1mo"` from
2026-03-31 subtracts one calendar month (normalizing through `AddDate`),
and the malformed inputs fail. -/
theorem ParseRelativeTime_domain_witness :
    (∃ t, ParseRelativeTime ⟨2026, 1, 1, 12, 0, 0, 0⟩ "3d" = .ok t) ∧
    (∃ t, ParseRelativeTime ⟨2026, 1, 1, 12, 0, 0, 0⟩ "2026-01-15" = .ok t) ∧
    ParseRelativeTime ⟨2026, 3, 31, 12, 0, 0, 0⟩ "1mo" =
      .ok (goAddDate ⟨2026, 3, 31, 12, 0, 0, 0⟩ 0 (-(goAtoi "1").1) 0) ∧
    exceptIsOk (ParseRelativeTime ⟨2026, 1, 1, 12, 0, 0, 0⟩ "abc") = false :=
  ⟨(ParseRelativeTime_domain.1 ⟨2026, 1, 1, 12, 0, 0, 0⟩ "3d").mpr
      (Or.inl ⟨['3'], ['d'], by decide, by decide, Or.inl rfl, rfl⟩),
   (ParseRelativeTime_domain.1 ⟨2026, 1, 1, 12, 0, 0, 0⟩ "2026-01-15").mpr
      (Or.inr (by decide)),
   ParseRelativeTime_domain.2.2.1 ⟨2026, 3, 31, 12, 0, 0, 0⟩ "1mo" "1"
      (by decide),
   (ParseRelativeTime_domain.2.2.2 ⟨2026, 1, 1, 12, 0, 0, 0⟩).1⟩

/-- C10: any input in the regex language is accepted, even when the digit
run exceeds the 64-bit integer range — the `strconv.Atoi` error is
discarded and the clamped value is used, so overflow is never a parse
error. -/
theorem ParseRelativeTime_overflow_tolerated :
    ∀ (now : GoTime) (s ds u : String),
      relMatch s = some (ds, u) →
      exceptIsOk (ParseRelativeTime now s) = true := by
  intro now s ds u h
  obtain ⟨t, ht⟩ := ParseRelativeTime_ok_of_relMatch now s (ds, u) h
  rw [ht]
  rfl

/-- Witness for C10: a 20-digit count overflows `int64` (the `Atoi` ok
flag is `false`), yet parsing succeeds. -/
theorem ParseRelativeTime_overflow_tolerated_witness :
    relMatch "99999999999999999999d" = some ("99999999999999999999", "d") ∧
    (goAtoi "99999999999999999999").2 = false ∧
    exceptIsOk (ParseRelativeTime ⟨2026, 1, 1, 0, 0, 0, 0⟩
      "99999999999999999999d") = true :=
  ⟨by decide, by decide,
   ParseRelativeTime_overflow_tolerated ⟨2026, 1, 1, 0, 0, 0, 0⟩
     "99999999999999999999d" "99999999999999999999" "d" (by decide)⟩

/-- C7: with a scope project the resolver's candidate set is exactly that
project; without one it is exactly the listed projects with
`isActive = true` that are not the archival-only glacier bucket. -/
theorem candidateProjectIDs_spec :
    (∀ (client : TicketsClient) (scope : String), scope ≠ "" →
      candidateProjectIDs client scope = .ok [scope]) ∧
    (∀ (client : TicketsClient) (ps : List GoProject),
      client.listProjects = .ok ps →
      candidateProjectIDs client "" =
        .ok ((ps.filter (fun p => p.isActive && !p.isArchivalOnly)).map
          (fun p => p.projectID))) := by
  constructor
  · intro client scope h
    unfold candidateProjectIDs
    rw [if_pos h]
  · intro client ps h
    unfold candidateProjectIDs
    rw [if_neg (by simp), h]
    dsimp only
    have hf : ∀ p ∈ ps,
        (!(p.projectID = "glacier_project_documents" || !p.isActive)) =
          (p.isActive && !p.isArchivalOnly) := by
      intro p _
      unfold GoProject.isArchivalOnly
      cases hb : p.isActive <;>
        by_cases hg : p.projectID = "glacier_project_documents" <;>
        simp [hg, hb]
    rw [List.filter_congr hf]

/-- Witness for C7: a concrete project list with an inactive project and
the glacier bucket; only the active non-glacier project survives. -/
theorem candidateProjectIDs_spec_witness :
    candidateProjectIDs
      { listProjects := .ok
          [⟨"p1", "One", true⟩, ⟨"p2", "Two", false⟩,
           ⟨"glacier_project_documents", "Glacier", true⟩],
        searchTicketsByID := fun _ _ => .ok [],
        getTicket := fun _ _ => .error "not found" } "" = .ok ["p1"] ∧
    candidateProjectIDs
      { listProjects := .error "down",
        searchTicketsByID := fun _ _ => .ok [],
        getTicket := fun _ _ => .error "not found" } "scoped" =
      .ok ["scoped"] := by
  constructor
  · rw [candidateProjectIDs_spec.2
      { listProjects := .ok
          [⟨"p1", "One", true⟩, ⟨"p2", "Two", false⟩,
           ⟨"glacier_project_documents", "Glacier", true⟩],
        searchTicketsByID := fun _ _ => .ok [],
        getTicket := fun _ _ => .error "not found" }
      [⟨"p1", "One", true⟩, ⟨"p2", "Two", false⟩,
       ⟨"glacier_project_documents", "Glacier", true⟩] rfl]
    rfl
  · exact candidateProjectIDs_spec.1
      { listProjects := .error "down",
        searchTicketsByID := fun _ _ => .ok [],
        getTicket := fun _ _ => .error "not found" } "scoped" (by decide)

/-- A scan over tickets in which every `humanID` match has no compound id
and a failing probe produces no result. -/
theorem resolveTicketLoop_none (client : TicketsClient) (sid : String)
    (pids : List String) (l : List GoTicket)
    (h : ∀ t ∈ l, humanID t.couchDbID = sid →
      ¬(t.id ≠ "" ∧ containsPipe t.id = true) ∧
      probeProjects client t.couchDbID pids = none) :
    resolveTicketLoop client sid pids l = none := by
  induction l with
  | nil => rfl
  | cons t ts ih =>
    have iht := ih (fun u hu => h u (List.mem_cons_of_mem t hu))
    unfold resolveTicketLoop
    by_cases hm : humanID t.couchDbID = sid
    · obtain ⟨hc, hp⟩ := h t (List.mem_cons_self t ts) hm
      rw [if_pos hm, if_neg hc, hp, iht]
    · rw [if_neg hm, iht]

/-- C5: when no returned record's recomputed `humanID` equals the
normalized requested id — and, where a match has no compound id, the
fallback probe fails on every candidate project — the resolver returns
the "not found" error (never a default pair with no error). -/
theorem resolver_not_found :
    ∀ (client : TicketsClient) (searchID0 scope : String)
      (cands : List String) (tickets : List GoTicket),
      candidateProjectIDs client scope = .ok cands →
      client.searchTicketsByID cands (goToLower (goToUpper searchID0)) =
        .ok tickets →
      (∀ t ∈ tickets, humanID t.couchDbID = goToUpper searchID0 →
        ¬(t.id ≠ "" ∧ containsPipe t.id = true) ∧
        probeProjects client t.couchDbID cands = none) →
      findTicketByHumanID client searchID0 scope =
        .error ("ticket with ID " ++ goToUpper searchID0 ++ " not found") := by
  intro client searchID0 scope cands tickets hc hs h
  unfold findTicketByHumanID
  dsimp only
  rw [hc]
  dsimp only
  rw [hs]
  dsimp only
  rw [resolveTicketLoop_none client (goToUpper searchID0) cands tickets h]

/-- Witness for C5: one active project, a search page with one
non-matching record, no probe ever attempted. -/
theorem resolver_not_found_witness :
    findTicketByHumanID
      { listProjects := .ok [⟨"p1", "One", true⟩],
        searchTicketsByID := fun _ _ => .ok [⟨"", "zzzzzz", none⟩],
        getTicket := fun _ _ => .error "not found" } "ABC123" "" =
      .error "ticket with ID ABC123 not found" := by
  have h := resolver_not_found
    { listProjects := .ok [⟨"p1", "One", true⟩],
      searchTicketsByID := fun _ _ => .ok [⟨"", "zzzzzz", none⟩],
      getTicket := fun _ _ => .error "not found" } "ABC123" "" ["p1"]
    [⟨"", "zzzzzz", none⟩] rfl rfl
    (by
      intro t ht hm
      simp only [List.mem_singleton] at ht
      subst ht
      exact absurd hm (by decide))
  exact h

/-- The fallback probe returns the unique project on which `GetTicket`
succeeds, when there is exactly one such project among the candidates. -/
theorem probeProjects_first (client : TicketsClient) (cid pid : String)
    (cands : List String) (hmem : pid ∈ cands)
    (huniq : ∀ q ∈ cands,
      exceptIsOk (client.getTicket q cid) = true ↔ q = pid) :
    probeProjects client cid cands = some pid := by
  induction cands with
  | nil => exact absurd hmem (List.not_mem_nil pid)
  | cons q qs ih =>
    by_cases hq : q = pid
    · subst hq
      have hok := (huniq q (List.mem_cons_self q qs)).mpr rfl
      unfold probeProjects
      cases hg : client.getTicket q cid with
      | ok t => rfl
      | error e => rw [hg] at hok; exact absurd hok (by simp [exceptIsOk])
    · have hfail := (huniq q (List.mem_cons_self q qs))
      have hmem2 : pid ∈ qs := by
        rcases List.mem_cons.mp hmem with h | h
        · exact absurd h.symm hq
        · exact h
      have ih2 := ih hmem2 (fun r hr => huniq r (List.mem_cons_of_mem q hr))
      unfold probeProjects
      cases hg : client.getTicket q cid with
      | ok t =>
        rw [hg] at hfail
        exact absurd (hfail.mp rfl) hq
      | error e => exact ih2

/-- `beforePipe` recovers the project id from a compound id whose project
part contains no pipe. -/
theorem beforePipe_compound (pid cid : String) (h : '|' ∉ pid.data) :
    beforePipe (pid ++ "|" ++ cid) = pid := by
  have hdata : (pid ++ "|" ++ cid).data = pid.data ++ '|' :: cid.data := by
    simp [String.data_append]
  have hsp := takeWhile_append_not (fun c => decide (c ≠ '|')) pid.data
    ('|' :: cid.data)
    (fun c hc => by
      simp only [decide_eq_true_eq]
      intro heq
      exact h (heq ▸ hc))
    (fun c hc => by
      rw [List.head?_cons] at hc
      cases hc
      decide)
  unfold beforePipe
  rw [hdata, hsp.1]

/-- The compound branch of the loop takes the `if` branch: a compound id
is non-empty and contains a pipe. -/
theorem compound_cond (pid cid : String) :
    ((pid ++ "|" ++ cid) ≠ "" ∧ containsPipe (pid ++ "|" ++ cid) = true) := by
  have hdata : (pid ++ "|" ++ cid).data = pid.data ++ '|' :: cid.data := by
    simp [String.data_append]
  constructor
  · intro h
    have : (pid ++ "|" ++ cid).data = [] := by rw [h]
    rw [hdata] at this
    exact absurd this (by simp)
  · unfold containsPipe
    rw [hdata]
    simp

/-- The scan returns the unique matching record's project and id when
every returned match agrees with it and its project is determined either
by the compound id or by a probe succeeding exactly there. -/
theorem resolveTicketLoop_unique (client : TicketsClient) (sid : String)
    (cands : List String) (l : List GoTicket) (t : GoTicket) (pid : String)
    (hmem : t ∈ l) (hmatch : humanID t.couchDbID = sid)
    (hunif : ∀ u ∈ l, humanID u.couchDbID = sid →
      u.couchDbID = t.couchDbID ∧ u.id = t.id)
    (hres : (t.id = pid ++ "|" ++ t.couchDbID ∧ '|' ∉ pid.data) ∨
      (¬(t.id ≠ "" ∧ containsPipe t.id = true) ∧ pid ∈ cands ∧
       (∀ q ∈ cands,
         exceptIsOk (client.getTicket q t.couchDbID) = true ↔ q = pid))) :
    resolveTicketLoop client sid cands l = some (pid, t.couchDbID) := by
  induction l with
  | nil => exact absurd hmem (List.not_mem_nil t)
  | cons u us ih =>
    unfold resolveTicketLoop
    by_cases hm : humanID u.couchDbID = sid
    · obtain ⟨hcid, hid⟩ := hunif u (List.mem_cons_self u us) hm
      rw [if_pos hm]
      rcases hres with ⟨hcomp, hpipe⟩ | ⟨hnc, hpmem, hpuniq⟩
      · have hcond := compound_cond pid t.couchDbID
        rw [hid, hcomp, if_pos hcond, beforePipe_compound pid t.couchDbID hpipe,
          hcid]
      · rw [hid, if_neg hnc, hcid,
          probeProjects_first client t.couchDbID pid cands hpmem hpuniq]
    · have hne : t ≠ u := fun h => hm (h ▸ hmatch)
      have hmem2 : t ∈ us := by
        rcases List.mem_cons.mp hmem with h | h
        · exact absurd h hne
        · exact h
      rw [if_neg hm]
      exact ih hmem2 (fun v hv => hunif v (List.mem_cons_of_mem u hv))

/-- C1: if the batched search over the active, non-archival candidate
projects returns a record whose `Encode(remoteId)` equals the requested
HumanId, every returned match is that record, and exactly one candidate
project owns it (named by the compound id, or the only project where the
fallback probe succeeds), then `Resolve` with no scope returns that
project and that record's id. -/
theorem resolver_unique_match :
    ∀ (client : TicketsClient) (searchID0 : String) (cands : List String)
      (tickets : List GoTicket) (t : GoTicket) (pid : String),
      candidateProjectIDs client "" = .ok cands →
      client.searchTicketsByID cands (goToLower (goToUpper searchID0)) =
        .ok tickets →
      t ∈ tickets →
      humanID t.couchDbID = goToUpper searchID0 →
      (∀ u ∈ tickets, humanID u.couchDbID = goToUpper searchID0 →
        u.couchDbID = t.couchDbID ∧ u.id = t.id) →
      ((t.id = pid ++ "|" ++ t.couchDbID ∧ '|' ∉ pid.data) ∨
       (¬(t.id ≠ "" ∧ containsPipe t.id = true) ∧ pid ∈ cands ∧
        (∀ q ∈ cands,
          exceptIsOk (client.getTicket q t.couchDbID) = true ↔ q = pid))) →
      findTicketByHumanID client searchID0 "" = .ok (pid, t.couchDbID) := by
  intro client searchID0 cands tickets t pid hc hs hmem hmatch hunif hres
  unfold findTicketByHumanID
  dsimp only
  rw [hc]
  dsimp only
  rw [hs]
  dsimp only
  rw [resolveTicketLoop_unique client (goToUpper searchID0) cands
    tickets t pid hmem hmatch hunif hres]

/-- Witness for C1, compound-id path: one active project owning the
record, search returns it with a compound id. -/
theorem resolver_unique_match_witness :
    findTicketByHumanID
      { listProjects := .ok [⟨"p1", "One", true⟩],
        searchTicketsByID := fun _ _ => .ok [⟨"p1|abcdef", "abcdef", none⟩],
        getTicket := fun _ _ => .error "not found" } "fedcba" "" =
      .ok ("p1", "abcdef") := by
  exact resolver_unique_match
    { listProjects := .ok [⟨"p1", "One", true⟩],
      searchTicketsByID := fun _ _ => .ok [⟨"p1|abcdef", "abcdef", none⟩],
      getTicket := fun _ _ => .error "not found" } "fedcba" ["p1"]
    [⟨"p1|abcdef", "abcdef", none⟩] ⟨"p1|abcdef", "abcdef", none⟩ "p1"
    rfl rfl (by simp) (by decide)
    (by intro u hu _; simp only [List.mem_singleton] at hu; subst hu
        exact ⟨rfl, rfl⟩)
    (Or.inl ⟨by decide, by decide⟩)

/-- Everything the page scan accumulates either was already accumulated
or passes the date filter. -/
theorem accumulateMatches_mem (filters : DateFilterSet) (limit : Int) :
    ∀ (ts acc : List GoTicket),
      (∀ t ∈ acc, ticketMatchesDates filters t = true) →
      ∀ t ∈ accumulateMatches filters limit acc ts,
        ticketMatchesDates filters t = true := by
  intro ts
  induction ts with
  | nil => intro acc hacc; exact hacc
  | cons t ts ih =>
    intro acc hacc
    have hext : ticketMatchesDates filters t = true →
        ∀ u ∈ acc ++ [t], ticketMatchesDates filters u = true := by
      intro hm u hu
      rcases List.mem_append.mp hu with h | h
      · exact hacc u h
      · rw [List.mem_singleton.mp h]; exact hm
    unfold accumulateMatches
    by_cases hm : ticketMatchesDates filters t = true
    · rw [if_pos hm]
      by_cases hl : limit ≤ ((acc ++ [t]).length : Int)
      · rw [if_pos hl]; exact hext hm
      · rw [if_neg hl]; exact ih (acc ++ [t]) (hext hm)
    · rw [if_neg hm]; exact ih acc hacc

/-- The page scan never pushes the accumulator past the limit when it
starts below it. -/
theorem accumulateMatches_len (filters : DateFilterSet) (limit : Int) :
    ∀ (ts acc : List GoTicket), (acc.length : Int) < limit →
      ((accumulateMatches filters limit acc ts).length : Int) ≤ limit := by
  intro ts
  induction ts with
  | nil => intro acc hacc; exact le_of_lt hacc
  | cons t ts ih =>
    intro acc hacc
    unfold accumulateMatches
    by_cases hm : ticketMatchesDates filters t = true
    · rw [if_pos hm]
      by_cases hl : limit ≤ ((acc ++ [t]).length : Int)
      · rw [if_pos hl]
        have : ((acc ++ [t]).length : Int) = (acc.length : Int) + 1 := by
          simp
        omega
      · rw [if_neg hl]
        exact ih (acc ++ [t]) (by omega)
    · rw [if_neg hm]; exact ih acc hacc

/-- Loop invariant: starting below the limit with only matching records
accumulated, a successful run returns only matching records and at most
`limit` of them. -/
theorem ticketsFetchLoop_invariant (filters : DateFilterSet)
    (limit fetchSize : Int) :
    ∀ (fuel : Nat) (pages : List (Except String (List GoTicket)))
      (acc res : List GoTicket),
      (∀ t ∈ acc, ticketMatchesDates filters t = true) →
      (acc.length : Int) < limit →
      ticketsFetchLoop filters limit fetchSize fuel pages acc = .ok res →
      (∀ t ∈ res, ticketMatchesDates filters t = true) ∧
        (res.length : Int) ≤ limit := by
  intro fuel
  induction fuel with
  | zero =>
    intro pages acc res hacc hlen hrun
    cases hrun
    exact ⟨hacc, le_of_lt hlen⟩
  | succ fuel ih =>
    intro pages acc res hacc hlen hrun
    unfold ticketsFetchLoop at hrun
    cases hpage : pages.headD (.ok []) with
    | error e => rw [hpage] at hrun; exact absurd hrun (by simp)
    | ok tickets =>
      rw [hpage] at hrun
      dsimp only at hrun
      by_cases hstop : limit ≤
            ((accumulateMatches filters limit acc tickets).length : Int) ∨
          (tickets.length : Int) < fetchSize
      · rw [if_pos hstop] at hrun
        cases hrun
        exact ⟨accumulateMatches_mem filters limit tickets acc hacc,
          accumulateMatches_len filters limit tickets acc hlen⟩
      · rw [if_neg hstop] at hrun
        push_neg at hstop
        exact ih pages.tail (accumulateMatches filters limit acc tickets) res
          (accumulateMatches_mem filters limit tickets acc hacc)
          hstop.1 hrun

/-- C8: the date-filtered list loop fetches `Limit * 3` capped at 200 per
page; a successful run returns only records passing `MatchesDates` and
never more than the requested limit; and as soon as the accumulated
records reach the limit or a page is shorter than the fetch size, the
loop stops — the result does not depend on any later page. -/
theorem ticketsList_dateFilter_invariants :
    (∀ limit : Int, ticketsFetchSize limit = min (limit * 3) 200) ∧
    (∀ (filters : DateFilterSet) (limit : Int)
      (pages : List (Except String (List GoTicket))) (res : List GoTicket),
      1 ≤ limit →
      ticketsListDateFiltered filters limit pages = .ok res →
      (∀ t ∈ res, ticketMatchesDates filters t = true) ∧
        (res.length : Int) ≤ limit) ∧
    (∀ (filters : DateFilterSet) (limit fetchSize : Int) (fuel : Nat)
      (tickets : List GoTicket)
      (rest : List (Except String (List GoTicket))) (acc : List GoTicket),
      (limit ≤ ((accumulateMatches filters limit acc tickets).length : Int) ∨
        (tickets.length : Int) < fetchSize) →
      ticketsFetchLoop filters limit fetchSize (fuel + 1)
        (.ok tickets :: rest) acc =
        .ok (accumulateMatches filters limit acc tickets)) := by
  refine ⟨fun limit => ?_, fun filters limit pages res hlim hrun => ?_,
    fun filters limit fetchSize fuel tickets rest acc hstop => ?_⟩
  · unfold ticketsFetchSize
    rw [min_def]
    split <;> split <;> omega
  · unfold ticketsListDateFiltered at hrun
    cases hloop : ticketsFetchLoop filters limit (ticketsFetchSize limit)
        (pages.length + 1) pages [] with
    | error e => rw [hloop] at hrun; exact absurd hrun (by simp)
    | ok allTickets =>
      rw [hloop] at hrun
      dsimp only at hrun
      have hinv := ticketsFetchLoop_invariant filters limit
        (ticketsFetchSize limit) (pages.length + 1) pages [] allTickets
        (by intro t ht; exact absurd ht (List.not_mem_nil t))
        (by simpa using hlim) hloop
      by_cases htr : limit < (allTickets.length : Int)
      · rw [if_pos htr] at hrun
        cases hrun
        constructor
        · intro t ht
          exact hinv.1 t (List.mem_of_mem_take ht)
        · have : (allTickets.take limit.toNat).length = limit.toNat := by
            rw [List.length_take]
            omega
          omega
      · rw [if_neg htr] at hrun
        cases hrun
        exact ⟨hinv.1, le_of_not_lt htr⟩
  · unfold ticketsFetchLoop
    rw [List.headD_cons]
    dsimp only
    rw [if_pos hstop]

/-- Witness for C8: limit 1 with an active created-after bound; the first
page holds one matching record, which is returned without touching the
second page, and the fetch size of limit 50 is 150 while limit 100 caps
at 200. -/
theorem ticketsList_dateFilter_invariants_witness :
    ticketsFetchSize 50 = min (50 * 3) 200 ∧
    ((∀ t ∈ [(⟨"", "t1", some ⟨"2026-01-15", ""⟩⟩ : GoTicket)],
        ticketMatchesDates ⟨some 0, none, none, none⟩ t = true) ∧
      (([(⟨"", "t1", some ⟨"2026-01-15", ""⟩⟩ : GoTicket)].length : Int) ≤ 1)) ∧
    ticketsFetchLoop ⟨some 0, none, none, none⟩ 1 3 1
      [.ok [⟨"", "t1", some ⟨"2026-01-15", ""⟩⟩]] [] =
      .ok (accumulateMatches ⟨some 0, none, none, none⟩ 1 []
        [⟨"", "t1", some ⟨"2026-01-15", ""⟩⟩]) :=
  ⟨ticketsList_dateFilter_invariants.1 50,
   ticketsList_dateFilter_invariants.2.1 ⟨some 0, none, none, none⟩ 1
     [.ok [⟨"", "t1", some ⟨"2026-01-15", ""⟩⟩],
      .ok [⟨"", "t2", some ⟨"2026-01-16", ""⟩⟩]]
     [⟨"", "t1", some ⟨"2026-01-15", ""⟩⟩] (by decide) (by rfl),
   ticketsList_dateFilter_invariants.2.2 ⟨some 0, none, none, none⟩ 1 3 0
     [⟨"", "t1", some ⟨"2026-01-15", ""⟩⟩] [] []
     (Or.inl (by decide))⟩

/-- A page in which no file carries the display name yields no scan
result. -/
theorem findUploadedFile_none (displayName : String) (files : List GoFile)
    (h : ∀ f ∈ files, fileScanName f ≠ displayName) :
    findUploadedFile displayName files = none := by
  induction files with
  | nil => rfl
  | cons f fs ih =>
    unfold findUploadedFile
    rw [if_neg (h f (List.mem_cons_self f fs))]
    exact ih (fun g hg => h g (List.mem_cons_of_mem f hg))

/-- C4: when record creation succeeds (status 200) but the scan of the
recent-files page finds no record whose name exactly equals the display
name, the pipeline fails with the distinct "could not find uploaded
file" error, and no conversion job is ever submitted (the call trace
contains no `ConvertFileToMap`). -/
theorem mapsAdd_discover_failure :
    ∀ (client : MapsClient)
      (db fileGroupID filePath fileBaseName nameArg : String)
      (fileData : ByteSeq) (fileSize : Int) (tags : List String)
      (nowMillis : Int) (ir : InitiateUploadResponse)
      (cr : CompleteUploadResponse) (resp : CreateFileResponse)
      (files : List GoFile),
      client.initiateUpload db (mapsUploadName fileBaseName nowMillis) =
        .ok ir →
      client.uploadChunk ir.uuid (mapsUploadName fileBaseName nowMillis) 0
        fileData = .ok () →
      client.completeUpload ir.uuid (mapsUploadName fileBaseName nowMillis) =
        .ok cr →
      client.createFile
        { database := db, fileName := mapsDisplayName nameArg fileBaseName,
          uploadedName := mapsUploadName fileBaseName nowMillis,
          fileURL := cr.signedURL, fileGroupID := fileGroupID,
          contentType := getContentType filePath, size := fileSize,
          tags := tags } = .ok resp →
      resp.code = 200 →
      client.listFiles
        { database := db, size := 20, sortBy := "CREATIONDATE",
          sortOrder := "DESC" } = .ok files →
      (∀ f ∈ files, fileScanName f ≠ mapsDisplayName nameArg fileBaseName) →
      (mapsAddRun client db fileGroupID filePath fileBaseName nameArg
          fileData fileSize tags nowMillis true).1 =
        .error ("could not find uploaded file '" ++
          mapsDisplayName nameArg fileBaseName ++ "' (searched " ++
          toString files.length ++ " recent files)") ∧
      (mapsAddRun client db fileGroupID filePath fileBaseName nameArg
          fileData fileSize tags nowMillis true).2.any isConvertCall =
        false := by
  intro client db fileGroupID filePath fileBaseName nameArg fileData
    fileSize tags nowMillis ir cr resp files h1 h2 h3 h4 hcode h5 hscan
  have hrun : mapsAddRun client db fileGroupID filePath fileBaseName nameArg
      fileData fileSize tags nowMillis true =
      (.error ("could not find uploaded file '" ++
          mapsDisplayName nameArg fileBaseName ++ "' (searched " ++
          toString files.length ++ " recent files)"),
        [ApiCall.initiateUpload db (mapsUploadName fileBaseName nowMillis),
         ApiCall.uploadChunk ir.uuid (mapsUploadName fileBaseName nowMillis)
           0 fileData,
         ApiCall.completeUpload ir.uuid (mapsUploadName fileBaseName nowMillis),
         ApiCall.createFile
           { database := db,
             fileName := mapsDisplayName nameArg fileBaseName,
             uploadedName := mapsUploadName fileBaseName nowMillis,
             fileURL := cr.signedURL, fileGroupID := fileGroupID,
             contentType := getContentType filePath, size := fileSize,
             tags := tags },
         ApiCall.listFiles
           { database := db, size := 20, sortBy := "CREATIONDATE",
             sortOrder := "DESC" }]) := by
    unfold mapsAddRun
    rw [if_neg (by decide)]
    dsimp only
    rw [h1]
    dsimp only
    rw [h2]
    dsimp only
    rw [h3]
    dsimp only
    rw [h4]
    dsimp only
    rw [if_neg (not_not_intro hcode)]
    rw [h5]
    dsimp only
    rw [findUploadedFile_none (mapsDisplayName nameArg fileBaseName) files
      hscan]
    simp
  rw [hrun]
  exact ⟨rfl, rfl⟩

/-- Witness for C4: all upload stages succeed, the recent-files page
holds only a differently-named file, and the run ends in the discovery
error with no conversion call in the trace. -/
theorem mapsAdd_discover_failure_witness :
    (mapsAddRun
      { initiateUpload := fun _ _ => .ok ⟨"uuid1"⟩,
        uploadChunk := fun _ _ _ _ => .ok (),
        completeUpload := fun _ _ => .ok ⟨"https://signed"⟩,
        createFile := fun _ => .ok ⟨200, "ok"⟩,
        listFiles := fun _ => .ok [⟨"", "", "f1", "other.pdf", "other.pdf", "v1"⟩],
        getFile := fun _ _ => .error "nf",
        getFileGroup := fun _ _ => .error "nf",
        convertFileToMap := fun _ _ _ _ _ => .ok () }
      "p1" "g1" "/tmp/plan.pdf" "plan.pdf" "" [1, 2] 2 [] 1700000000000
      true).1 =
      .error ("could not find uploaded file '" ++
        mapsDisplayName "" "plan.pdf" ++ "' (searched " ++
        toString ([(⟨"", "", "f1", "other.pdf", "other.pdf", "v1"⟩ : GoFile)].length) ++
        " recent files)") ∧
    (mapsAddRun
      { initiateUpload := fun _ _ => .ok ⟨"uuid1"⟩,
        uploadChunk := fun _ _ _ _ => .ok (),
        completeUpload := fun _ _ => .ok ⟨"https://signed"⟩,
        createFile := fun _ => .ok ⟨200, "ok"⟩,
        listFiles := fun _ => .ok [⟨"", "", "f1", "other.pdf", "other.pdf", "v1"⟩],
        getFile := fun _ _ => .error "nf",
        getFileGroup := fun _ _ => .error "nf",
        convertFileToMap := fun _ _ _ _ _ => .ok () }
      "p1" "g1" "/tmp/plan.pdf" "plan.pdf" "" [1, 2] 2 [] 1700000000000
      true).2.any isConvertCall = false :=
  mapsAdd_discover_failure
    { initiateUpload := fun _ _ => .ok ⟨"uuid1"⟩,
      uploadChunk := fun _ _ _ _ => .ok (),
      completeUpload := fun _ _ => .ok ⟨"https://signed"⟩,
      createFile := fun _ => .ok ⟨200, "ok"⟩,
      listFiles := fun _ => .ok [⟨"", "", "f1", "other.pdf", "other.pdf", "v1"⟩],
      getFile := fun _ _ => .error "nf",
      getFileGroup := fun _ _ => .error "nf",
      convertFileToMap := fun _ _ _ _ _ => .ok () }
    "p1" "g1" "/tmp/plan.pdf" "plan.pdf" "" [1, 2] 2 [] 1700000000000
    ⟨"uuid1"⟩ ⟨"https://signed"⟩ ⟨200, "ok"⟩
    [⟨"", "", "f1", "other.pdf", "other.pdf", "v1"⟩]
    rfl rfl rfl rfl rfl rfl
    (by
      intro f hf
      simp only [List.mem_singleton] at hf
      subst hf
      decide)
